import Mathlib

/-!
Shallow embedding of the boids simulation (src/boids): `Boid` kinematics
(`boid.py`), the predator specialization (`predaboid.py`) and the driver
(`simulation.py`).  Python floats are modelled by real numbers; 2-D numpy
arrays by pairs of reals.  Object identity (`id(...)`, `is not`) is modelled
by an `ident : ℕ` field that every update preserves, mirroring the stability
of CPython object ids over an object's lifetime.

Caches: `Boid._voisins_cache` is reset at the start of every `interaction`
call and positions/velocities do not change between the `voisins` calls of a
single `interaction`, so it is semantically transparent and `voisins` is
modelled fresh.  `Boid._distances_cache` is reset inside every `voisins`
cache miss, and the first `voisins` call of each `interaction` is always a
miss, so within `interaction` it is transparent as well; but `Predaboid.eat`
runs outside any `interaction` and reads whatever the cache held at the end
of the previous predator `interaction`.  The cache is therefore carried as a
`dcache` field: `interaction` leaves in it the distances measured at
force-computation time (the state after the last `voisins` miss), and `eat`
consults it before recomputing, exactly as `Boid.distance` does.

The dead statement `voisins_proches = len(self.voisins(population, 25))` in
`Boid.interaction` only warms the caches and binds an unused local, so it has
no counterpart here.
-/

namespace BoidsSim

/-- A 2-D vector, as the two components of a numpy array of shape (2,). -/
abbrev Vec : Type := ℝ × ℝ

/-- Componentwise vector addition. -/
def vadd (v w : Vec) : Vec := (v.1 + w.1, v.2 + w.2)

/-- Componentwise vector subtraction. -/
def vsub (v w : Vec) : Vec := (v.1 - w.1, v.2 - w.2)

/-- Scalar multiplication of a vector. -/
def sm (c : ℝ) (v : Vec) : Vec := (c * v.1, c * v.2)

/-- Division of a vector by a scalar. -/
noncomputable def vdiv (v : Vec) (c : ℝ) : Vec := (v.1 / c, v.2 / c)

/-- The zero vector, `np.zeros(2)`. -/
def vzero : Vec := (0, 0)

/-- Dot product, `np.dot`. -/
def dot (v w : Vec) : ℝ := v.1 * w.1 + v.2 * w.2

/-- Sum of squared components. -/
def normSq (v : Vec) : ℝ := v.1 ^ 2 + v.2 ^ 2

/-- Euclidean norm, `np.linalg.norm`. -/
noncomputable def normV (v : Vec) : ℝ := Real.sqrt (normSq v)

/-- Which Python class an agent belongs to (`Boid` or `Predaboid`); models
the `other.__class__.__name__ == "Predaboid"` checks. -/
inductive BoidKind : Type
  | boid : BoidKind
  | predaboid : BoidKind
deriving DecidableEq

/-- The external interaction functions defined in `boid.py` that a caller can
attach with `add_interaction` (the random `noise` force is not used by
`Simulation` and is not modelled). -/
inductive ExtForce : Type
  | centripete : ExtForce
  | centrifuge : ExtForce
deriving DecidableEq

/-- State of one agent: class tag, position `x`, velocity `dx`, boost flag and
value, the `(function, weight)` attachment list, the distance cache, and an
identity for `is not` / `id(...)` semantics. -/
structure Boid : Type where
  ident : ℕ
  kind : BoidKind
  x : Vec
  dx : Vec
  boost : Bool
  boostValue : ℝ
  interactions : List (ExtForce × ℝ)
  dcache : List (ℕ × ℝ)

/-- Class attribute `Boid.taille` (half-width of the arena). -/
def taille : ℝ := 300

/-- Class attribute `Boid.max_voisins`. -/
def maxVoisins : ℕ := 10

/-- Class attribute `Boid.maXVitesse`. -/
def maXVitesse : ℝ := 10

/-- Class attribute `Boid.maxBoostValue`. -/
def maxBoostValue : ℝ := 3

/-- `Predaboid.eating_range`, set in `Predaboid.__init__`. -/
def eatingRange : ℝ := 20

/-- `Boid.distance` without its cache: `np.linalg.norm(self.x - other.x)`. -/
noncomputable def distance (a other : Boid) : ℝ := normV (vsub a.x other.x)

/-- The raw cosine `np.dot(v1, v2) / (norm_v1 * norm_v2)` in `angle_mort`. -/
noncomputable def cosRaw (a other : Boid) : ℝ :=
  dot a.dx (vsub other.x a.x) / (normV a.dx * normV (vsub other.x a.x))

/-- The cosine after `max(-1.0, min(1.0, cos_angle))`. -/
noncomputable def cosClamped (a other : Boid) : ℝ :=
  max (-1) (min 1 (cosRaw a other))

open Classical in
/-- `Boid.angle_mort`: `other` lies in the caller's blind spot.  Returns
`False` when either vector has zero norm, otherwise compares
`np.arccos(cos_angle)` with `0.75 * np.pi`. -/
noncomputable def angle_mort (a other : Boid) : Prop :=
  if normV a.dx = 0 ∨ normV (vsub other.x a.x) = 0 then False
  else Real.arccos (cosClamped a other) > 0.75 * Real.pi

open Classical in
/-- `Boid.voisins`: members of `population` other than the caller, strictly
within `seuil`, outside the blind spot, stably sorted by distance
(Python `sorted` with `key=self.distance`). -/
noncomputable def voisins (a : Boid) (population : List Boid) (seuil : ℝ) :
    List Boid :=
  (population.filter (fun other =>
      decide (a.ident ≠ other.ident) && decide (distance a other < seuil) &&
        ! decide (angle_mort a other))).mergeSort
    (fun o₁ o₂ => decide (distance a o₁ ≤ distance a o₂))

/-- `Boid.separation` (radius 50, up to `max_voisins` closest), overridden to
zero on `Predaboid`. -/
noncomputable def separation (a : Boid) (population : List Boid) : Vec :=
  match a.kind with
  | .predaboid => vzero
  | .boid =>
    let vp := (voisins a population 50).take maxVoisins
    if vp.isEmpty then vzero
    else vp.foldl (fun acc other => vadd acc (vsub a.x other.x)) vzero

/-- `Boid.align` (radius 200, up to `max_voisins` closest): mean neighbour
velocity minus own velocity. -/
noncomputable def align (a : Boid) (population : List Boid) : Vec :=
  let vs := (voisins a population 200).take maxVoisins
  if vs.isEmpty then vzero
  else vsub (vdiv (vs.foldl (fun acc other => vadd acc other.dx) vzero) vs.length) a.dx

/-- `Boid.cohere` (radius 200, up to `max_voisins` closest): mean neighbour
position minus own position. -/
noncomputable def cohere (a : Boid) (population : List Boid) : Vec :=
  let vs := (voisins a population 200).take maxVoisins
  if vs.isEmpty then vzero
  else vsub (vdiv (vs.foldl (fun acc other => vadd acc other.x) vzero) vs.length) a.x

/-- `Boid.detect_predator`: some population member is a `Predaboid`, within
150, and not in the caller's blind spot. -/
noncomputable def detect_predator (a : Boid) (population : List Boid) : Prop :=
  ∃ other ∈ population,
    other.kind = .predaboid ∧ distance a other < 150 ∧ ¬ angle_mort a other

open Classical in
/-- `Boid.flee_predator`: repulsion away from the first `Predaboid` that is
not in the blind spot and closer than 250; zero otherwise.  Overridden to
zero on `Predaboid`. -/
noncomputable def flee_predator (a : Boid) (population : List Boid) : Vec :=
  match a.kind with
  | .predaboid => vzero
  | .boid =>
    match population.find? (fun other =>
        decide (other.kind = BoidKind.predaboid) && ! decide (angle_mort a other) &&
          decide (distance a other < 250)) with
    | none => vzero
    | some other =>
      let dist := distance a other
      let force := 400 / max dist 10
      let direction := vsub a.x other.x
      let direction :=
        if normV direction > 0 then vdiv direction (normV direction) else direction
      sm force direction

/-- The external interaction functions of `boid.py`. -/
def extForceFun : ExtForce → Boid → List Boid → Vec
  | .centripete, b, _ => sm (-1) b.x
  | .centrifuge, b, _ => b.x

/-- Velocity after the steering-force accumulation line of
`Boid.interaction`: `dx += separation/50 + align/8 + cohere/100 +
flee_predator/2`. -/
noncomputable def forcesDx (a : Boid) (population : List Boid) : Vec :=
  vadd a.dx
    (vadd (vdiv (separation a population) 50)
      (vadd (vdiv (align a population) 8)
        (vadd (vdiv (cohere a population) 100)
          (vdiv (flee_predator a population) 2))))

open Classical in
/-- The boost flag set by `Boid.interaction` after the force accumulation:
note that at that point `self.dx` has already been updated, so the
blind-spot test inside `detect_predator` uses the new velocity. -/
noncomputable def boostFlag (a : Boid) (population : List Boid) (dx1 : Vec) :
    Bool :=
  decide (detect_predator { a with dx := dx1 } population) &&
    decide (a.boostValue > 1)

/-- The attachment loop of `Boid.interaction`:
`for fun, poids in self.interactions: self.dx += fun(self, population)/poids`,
where `self` carries the velocity accumulated so far. -/
noncomputable def extPhase (a : Boid) (population : List Boid) (boost1 : Bool)
    (d0 : Vec) : Vec :=
  a.interactions.foldl
    (fun d fw =>
      vadd d (vdiv (extForceFun fw.1 { a with dx := d, boost := boost1 } population) fw.2))
    d0

open Classical in
/-- The speed clamp of `Boid.interaction`: if the speed exceeds
`maXVitesse`, rescale `dx` to `dx * maXVitesse / speed`. -/
noncomputable def clampSpeed (v : Vec) : Vec :=
  if normV v > maXVitesse then sm (maXVitesse / normV v) v else v

/-- Distance-cache contents left by an `interaction` call: distances from the
caller's (pre-move) position to every other population member, as filled in by
the last `voisins` cache miss. -/
noncomputable def mkCache (a : Boid) (population : List Boid) : List (ℕ × ℝ) :=
  (population.filter (fun other => other.ident != a.ident)).map
    (fun other => (other.ident, distance a other))

open Classical in
/-- `Boid.move` / `Predaboid.move`: position integration and the boost
decay/regeneration state machine (`Predaboid` just advances at its fixed
`boostValue`). -/
noncomputable def move (a : Boid) : Boid :=
  match a.kind with
  | .predaboid => { a with x := vadd a.x (sm a.boostValue a.dx) }
  | .boid =>
    if a.boost then
      let x1 := vadd a.x (sm a.boostValue a.dx)
      let bv1 := a.boostValue - 0.5
      if bv1 ≤ 1 then { a with x := x1, boostValue := 0, boost := false }
      else { a with x := x1, boostValue := bv1 }
    else
      let x1 := vadd a.x (sm a.boostValue a.dx)
      if a.boostValue ≤ maxBoostValue then
        let bv1 := a.boostValue + 0.01
        if bv1 ≥ maxBoostValue then { a with x := x1, boostValue := maxBoostValue }
        else { a with x := x1, boostValue := bv1 }
      else { a with x := x1 }

open Classical in
/-- One axis of the reflecting-boundary block: the two sequential `if`
statements on `coord`, both reading the original coordinate. -/
noncomputable def reflect1 (coord d : ℝ) : ℝ × ℝ :=
  let p1 :=
    if coord + taille < 10 then (-taille + 10 + (coord + taille), -d) else (coord, d)
  if taille - coord < 10 then (taille - 10 - (taille - coord), -d) else p1

open Classical in
/-- The boundary-correction block at the end of `Boid.interaction`: guarded by
`(np.abs(self.x) > Boid.taille).any()`, then each coordinate is reflected. -/
noncomputable def rebond (x dx : Vec) : Vec × Vec :=
  if |x.1| > taille ∨ |x.2| > taille then
    let r1 := reflect1 x.1 dx.1
    let r2 := reflect1 x.2 dx.2
    ((r1.1, r2.1), (r1.2, r2.2))
  else (x, dx)

/-- The state of the caller just before the `self.move()` call inside
`Boid.interaction`: steering forces accumulated, boost flag set, attached
external forces applied, speed clamped, distance cache refreshed. -/
noncomputable def preMove (a : Boid) (population : List Boid) : Boid :=
  let dx1 := forcesDx a population
  let boost1 := boostFlag a population dx1
  let dx2 := extPhase a population boost1 dx1
  { a with dx := clampSpeed dx2, boost := boost1, dcache := mkCache a population }

/-- `Boid.interaction`: steering forces, boost flag, attached external forces,
speed clamp, `move`, boundary correction; returns the updated agent. -/
noncomputable def interaction (a : Boid) (population : List Boid) : Boid :=
  let am := move (preMove a population)
  let r := rebond am.x am.dx
  { am with x := r.1, dx := r.2 }

/-- `Boid.distance` as actually executed by `Predaboid.eat`: the cached value
when present, else the current Euclidean distance. -/
noncomputable def cachedDistance (p b : Boid) : ℝ :=
  match p.dcache.lookup b.ident with
  | some d => d
  | none => distance p b

open Classical in
/-- `Predaboid.eat`: keep exactly the population members whose
(cache-mediated) distance exceeds `eating_range`. -/
noncomputable def eat (p : Boid) (population : List Boid) : List Boid :=
  population.filter (fun b => decide (cachedDistance p b > eatingRange))

/-- State owned by `Simulation`: the prey list and the predator. -/
structure SimState : Type where
  boids : List Boid
  predator : Boid

/-- The prey loop of `Simulation.iteration`: agents are updated sequentially
in place, so each call sees the already-updated prefix, the not-yet-updated
suffix (itself included), and the predator. -/
noncomputable def preyPhase (p : Boid) : List Boid → List Boid → List Boid
  | done, [] => done
  | done, b :: todo =>
    preyPhase p (done ++ [interaction b (done ++ b :: todo ++ [p])]) todo

/-- The two-phase (compute-then-apply) evaluation of the prey loop described
by the spec: every agent reads the unmodified start-of-iteration snapshot. -/
noncomputable def twoPhase (p : Boid) (boids : List Boid) : List Boid :=
  boids.map (fun b => interaction b (boids ++ [p]))

/-- `Simulation.iteration`: prey interactions, then the predator eats, then
the predator's own interaction against the reduced population. -/
noncomputable def iteration (s : SimState) : SimState :=
  let boids1 := preyPhase s.predator [] s.boids
  let boids2 := eat s.predator boids1
  { boids := boids2, predator := interaction s.predator boids2 }

/-- `buildBoidCentripete`: a fresh `Boid` (position and velocity from the four
given RNG draws) with the `centripete` force attached at weight 200. -/
def buildBoidCentripete (px py vx vy : ℝ) (id0 : ℕ) : Boid :=
  { ident := id0, kind := .boid, x := (px, py), dx := (vx, vy), boost := false,
    boostValue := maxBoostValue, interactions := [(.centripete, 200)], dcache := [] }

/-- `Predaboid.__init__`: like `Boid.__init__` but with fixed `boostValue`
1.2, no attachments. -/
noncomputable def mkPredaboid (px py vx vy : ℝ) (id0 : ℕ) : Boid :=
  { ident := id0, kind := .predaboid, x := (px, py), dx := (vx, vy), boost := false,
    boostValue := 1.2, interactions := [], dcache := [] }

/-- `Simulation.__init__` with population count `n`: `np.random.seed` makes
every subsequent uniform draw a function of the seed alone, modelled by the
stream `rng` of drawn values (four per agent: two position components, two
velocity components); `range(n)` is empty for `n ≤ 0`. -/
noncomputable def simInit (n : ℤ) (rng : ℕ → ℝ) : SimState :=
  let m := n.toNat
  { boids := (List.range m).map (fun i =>
      buildBoidCentripete (rng (4 * i)) (rng (4 * i + 1)) (rng (4 * i + 2))
        (rng (4 * i + 3)) i),
    predator := mkPredaboid (rng (4 * m)) (rng (4 * m + 1)) (rng (4 * m + 2))
      (rng (4 * m + 3)) m }

/-- Driving `k` frames: `k` successive calls to `Simulation.iteration`. -/
noncomputable def iterateN : ℕ → SimState → SimState
  | 0, s => s
  | k + 1, s => iterateN k (iteration s)

/-! Helper lemmas about the geometry primitives. -/

theorem normSq_nonneg (v : Vec) : 0 ≤ normSq v := by
  unfold normSq; positivity

theorem normV_nonneg (v : Vec) : 0 ≤ normV v := Real.sqrt_nonneg _

theorem normV_eq_zero_iff (v : Vec) : normV v = 0 ↔ normSq v = 0 := by
  unfold normV
  exact Real.sqrt_eq_zero (normSq_nonneg v)

theorem normV_eq_of_sq (v : Vec) (c : ℝ) (hc : 0 ≤ c) (h : normSq v = c ^ 2) :
    normV v = c := by
  rw [normV, h, Real.sqrt_sq hc]

theorem normV_le_of_sq (v : Vec) (c : ℝ) (hc : 0 ≤ c) (h : normSq v ≤ c ^ 2) :
    normV v ≤ c := by
  rw [normV]
  exact (Real.sqrt_le_left hc).mpr h

theorem normV_lt_of_sq (v : Vec) (c : ℝ) (hc : 0 < c) (h : normSq v < c ^ 2) :
    normV v < c := by
  rw [normV]
  exact (Real.sqrt_lt' hc).mpr h

theorem sq_normV (v : Vec) : normV v ^ 2 = normSq v :=
  Real.sq_sqrt (normSq_nonneg v)

theorem normSq_sm (c : ℝ) (v : Vec) : normSq (sm c v) = c ^ 2 * normSq v := by
  unfold normSq sm; ring

theorem normV_sm (c : ℝ) (v : Vec) : normV (sm c v) = |c| * normV v := by
  unfold normV
  rw [normSq_sm, Real.sqrt_mul (sq_nonneg c), Real.sqrt_sq_eq_abs]

theorem not_lt_of_sq_le (v : Vec) (c : ℝ) (hc : 0 ≤ c) (h : normSq v ≤ c ^ 2) :
    ¬ normV v > c :=
  not_lt.mpr (normV_le_of_sq v c hc h)

theorem distance_eq_of_sq (a b : Boid) (c : ℝ) (hc : 0 ≤ c)
    (h : normSq (vsub a.x b.x) = c ^ 2) : distance a b = c :=
  normV_eq_of_sq _ c hc h

theorem distance_nonneg (a b : Boid) : 0 ≤ distance a b := normV_nonneg _

/-! Characterizations of `angle_mort` that avoid `arccos` and square roots,
used to evaluate the embedding on concrete states. -/

theorem cosClamped_mem_Icc (a b : Boid) :
    -1 ≤ cosClamped a b ∧ cosClamped a b ≤ 1 := by
  unfold cosClamped
  constructor
  · exact le_max_left _ _
  · exact max_le (by norm_num) (min_le_left _ _)

theorem dot_sq_le_normSq_mul (v w : Vec) :
    dot v w ^ 2 ≤ normSq v * normSq w := by
  unfold dot normSq
  nlinarith [sq_nonneg (v.1 * w.2 - v.2 * w.1)]

theorem abs_dot_le (v w : Vec) : |dot v w| ≤ normV v * normV w := by
  have h1 := normV_nonneg v
  have h2 := normV_nonneg w
  have h6 : dot v w ^ 2 ≤ (normV v * normV w) ^ 2 := by
    rw [mul_pow, sq_normV, sq_normV]
    exact dot_sq_le_normSq_mul v w
  calc |dot v w| = Real.sqrt (dot v w ^ 2) := (Real.sqrt_sq_eq_abs _).symm
    _ ≤ Real.sqrt ((normV v * normV w) ^ 2) := Real.sqrt_le_sqrt h6
    _ = normV v * normV w := Real.sqrt_sq (by positivity)

theorem cosClamped_eq_cosRaw (a b : Boid) (h1 : normV a.dx ≠ 0)
    (h2 : normV (vsub b.x a.x) ≠ 0) : cosClamped a b = cosRaw a b := by
  have hv1 : 0 < normV a.dx := lt_of_le_of_ne (normV_nonneg _) (Ne.symm h1)
  have hv2 : 0 < normV (vsub b.x a.x) := lt_of_le_of_ne (normV_nonneg _) (Ne.symm h2)
  have habs : |cosRaw a b| ≤ 1 := by
    unfold cosRaw
    rw [abs_div, abs_of_nonneg (by positivity : (0:ℝ) ≤ normV a.dx * normV (vsub b.x a.x))]
    rw [div_le_one (by positivity)]
    exact abs_dot_le _ _
  have hl := abs_le.mp habs
  unfold cosClamped
  rw [min_eq_right hl.2, max_eq_right hl.1]

theorem arccos_gt_iff (c : ℝ) (h1 : -1 ≤ c) (h2 : c ≤ 1) :
    Real.arccos c > 0.75 * Real.pi ↔ c < -(Real.sqrt 2 / 2) := by
  have hpi := Real.pi_pos
  have hcos : Real.cos (0.75 * Real.pi) = -(Real.sqrt 2 / 2) := by
    rw [show (0.75 : ℝ) * Real.pi = Real.pi - Real.pi / 4 by ring, Real.cos_pi_sub,
      Real.cos_pi_div_four]
  constructor
  · intro h
    have := Real.cos_lt_cos_of_nonneg_of_le_pi (by linarith) (Real.arccos_le_pi c) h
    rwa [Real.cos_arccos h1 h2, hcos] at this
  · intro h
    by_contra hcon
    push_neg at hcon
    have := Real.cos_le_cos_of_nonneg_of_le_pi (Real.arccos_nonneg c)
      (by linarith) hcon
    rw [Real.cos_arccos h1 h2, hcos] at this
    linarith

theorem angle_mort_not_of_zero (a b : Boid)
    (h : normV a.dx = 0 ∨ normV (vsub b.x a.x) = 0) : ¬ angle_mort a b := by
  unfold angle_mort
  rw [if_pos h]
  exact not_false

theorem angle_mort_iff_arccos (a b : Boid) (h1 : normV a.dx ≠ 0)
    (h2 : normV (vsub b.x a.x) ≠ 0) :
    angle_mort a b ↔ Real.arccos (cosClamped a b) > 0.75 * Real.pi := by
  unfold angle_mort
  rw [if_neg (by push_neg; exact ⟨h1, h2⟩)]

theorem neg_lt_iff_sq (t k : ℝ) (hk : 0 < k) :
    t < -k ↔ t < 0 ∧ k ^ 2 < t ^ 2 := by
  constructor
  · intro h
    constructor
    · linarith
    · nlinarith
  · rintro ⟨h1, h2⟩
    nlinarith

theorem angle_mort_iff_sq (a b : Boid) (h1 : normSq a.dx ≠ 0)
    (h2 : normSq (vsub b.x a.x) ≠ 0) :
    angle_mort a b ↔
      dot a.dx (vsub b.x a.x) < 0 ∧
        normSq a.dx * normSq (vsub b.x a.x) < 2 * dot a.dx (vsub b.x a.x) ^ 2 := by
  have h1' : normV a.dx ≠ 0 := fun h => h1 ((normV_eq_zero_iff _).mp h)
  have h2' : normV (vsub b.x a.x) ≠ 0 := fun h => h2 ((normV_eq_zero_iff _).mp h)
  have hv1 : 0 < normV a.dx := lt_of_le_of_ne (normV_nonneg _) (Ne.symm h1')
  have hv2 : 0 < normV (vsub b.x a.x) := lt_of_le_of_ne (normV_nonneg _) (Ne.symm h2')
  have hmem := cosClamped_mem_Icc a b
  rw [angle_mort_iff_arccos a b h1' h2', arccos_gt_iff _ hmem.1 hmem.2,
    cosClamped_eq_cosRaw a b h1' h2']
  unfold cosRaw
  rw [div_lt_iff (by positivity)]
  have hk : 0 < Real.sqrt 2 / 2 * (normV a.dx * normV (vsub b.x a.x)) := by
    have : (0:ℝ) < Real.sqrt 2 := Real.sqrt_pos.mpr (by norm_num)
    positivity
  rw [show -(Real.sqrt 2 / 2) * (normV a.dx * normV (vsub b.x a.x)) =
    -(Real.sqrt 2 / 2 * (normV a.dx * normV (vsub b.x a.x))) by ring,
    neg_lt_iff_sq _ _ hk]
  have hs2 : Real.sqrt 2 ^ 2 = 2 := Real.sq_sqrt (by norm_num)
  have hexp : (Real.sqrt 2 / 2 * (normV a.dx * normV (vsub b.x a.x))) ^ 2 =
      normSq a.dx * normSq (vsub b.x a.x) / 2 := by
    rw [mul_pow, div_pow, hs2, mul_pow, sq_normV, sq_normV]
    ring
  rw [hexp]
  constructor
  · rintro ⟨hd, hsq⟩
    exact ⟨hd, by linarith⟩
  · rintro ⟨hd, hsq⟩
    exact ⟨hd, by linarith⟩

theorem not_angle_mort_of_dot_nonneg (a b : Boid)
    (h : 0 ≤ dot a.dx (vsub b.x a.x)) : ¬ angle_mort a b := by
  by_cases h1 : normSq a.dx = 0
  · exact angle_mort_not_of_zero a b (Or.inl ((normV_eq_zero_iff _).mpr h1))
  by_cases h2 : normSq (vsub b.x a.x) = 0
  · exact angle_mort_not_of_zero a b (Or.inr ((normV_eq_zero_iff _).mpr h2))
  rw [angle_mort_iff_sq a b h1 h2]
  rintro ⟨hd, -⟩
  linarith

theorem angle_mort_of_sq (a b : Boid) (h1 : normSq a.dx ≠ 0)
    (h2 : normSq (vsub b.x a.x) ≠ 0) (hd : dot a.dx (vsub b.x a.x) < 0)
    (hsq : normSq a.dx * normSq (vsub b.x a.x) < 2 * dot a.dx (vsub b.x a.x) ^ 2) :
    angle_mort a b :=
  (angle_mort_iff_sq a b h1 h2).mpr ⟨hd, hsq⟩

/-! Helper lemmas about `move`, `clampSpeed` and `rebond`. -/

theorem move_dx (a : Boid) : (move a).dx = a.dx := by
  cases hk : a.kind <;> simp only [move, hk] <;> split_ifs <;> rfl

theorem move_kind (a : Boid) : (move a).kind = a.kind := by
  cases hk : a.kind <;> simp only [move, hk] <;> split_ifs <;> simp [hk]

theorem reflect1_sq (c d : ℝ) : (reflect1 c d).2 ^ 2 = d ^ 2 := by
  unfold reflect1
  split_ifs <;> simp <;> ring

theorem rebond_dx_normV (x d : Vec) : normV (rebond x d).2 = normV d := by
  unfold rebond
  split_ifs with h
  · simp only [normV, normSq]
    rw [reflect1_sq, reflect1_sq]
  · rfl

theorem sm_one (v : Vec) : sm 1 v = v := by
  unfold sm; simp

theorem rebond_id (x d : Vec) (h1 : |x.1| ≤ taille) (h2 : |x.2| ≤ taille) :
    rebond x d = (x, d) := by
  unfold rebond
  rw [if_neg]
  push_neg
  exact ⟨h1, h2⟩

theorem clampSpeed_normV_le (v : Vec) : normV (clampSpeed v) ≤ maXVitesse := by
  have h10 : (0 : ℝ) < maXVitesse := by norm_num [maXVitesse]
  unfold clampSpeed
  split_ifs with h
  · have hv : 0 < normV v := lt_trans h10 h
    rw [normV_sm, abs_of_nonneg (le_of_lt (div_pos h10 hv)), div_mul_cancel₀]
    exact ne_of_gt hv
  · exact not_lt.mp h

theorem clampSpeed_dir (v : Vec) : ∃ c : ℝ, 0 < c ∧ clampSpeed v = sm c v := by
  have h10 : (0 : ℝ) < maXVitesse := by norm_num [maXVitesse]
  unfold clampSpeed
  split_ifs with h
  · have hv : 0 < normV v := lt_trans h10 h
    exact ⟨maXVitesse / normV v, div_pos h10 hv, rfl⟩
  · exact ⟨1, one_pos, (sm_one v).symm⟩

/-- C6: for every agent and every population, the speed after `interaction`
is at most `maXVitesse` (10); the clamp rescales the velocity by a positive
scalar (preserving direction) and caps the norm, and neither `move` nor the
boundary reflection changes the speed afterwards. -/
theorem claimC6_speed_bound (a : Boid) (population : List Boid) :
    normV (interaction a population).dx ≤ maXVitesse ∧
      (∀ v : Vec, ∃ c : ℝ, 0 < c ∧ clampSpeed v = sm c v ∧
        normV (clampSpeed v) ≤ maXVitesse) := by
  constructor
  · show normV (rebond _ _).2 ≤ maXVitesse
    rw [rebond_dx_normV, move_dx]
    exact clampSpeed_normV_le _
  · intro v
    obtain ⟨c, hc, he⟩ := clampSpeed_dir v
    exact ⟨c, hc, he, clampSpeed_normV_le v⟩

/-! Boost-value lemmas for C7. -/

theorem move_bv_bounds (a : Boid) (hk : a.kind = .boid) (h0 : 0 ≤ a.boostValue)
    (h3 : a.boostValue ≤ maxBoostValue) :
    0 ≤ (move a).boostValue ∧ (move a).boostValue ≤ maxBoostValue := by
  simp only [move, hk, maxBoostValue] at *
  split_ifs <;> constructor <;> simp <;> linarith

theorem move_bv_pred (a : Boid) (hk : a.kind = .predaboid) :
    (move a).boostValue = a.boostValue := by
  simp only [move, hk]

theorem interaction_bv (a : Boid) (population : List Boid) :
    (interaction a population).boostValue = (move (preMove a population)).boostValue := rfl

theorem preMove_kind (a : Boid) (population : List Boid) :
    (preMove a population).kind = a.kind := rfl

theorem preMove_bv (a : Boid) (population : List Boid) :
    (preMove a population).boostValue = a.boostValue := rfl

theorem preMove_dx (a : Boid) (population : List Boid) :
    (preMove a population).dx =
      clampSpeed (extPhase a population
        (boostFlag a population (forcesDx a population)) (forcesDx a population)) := rfl

/-- C7: `boostValue` stays within `[0, maxBoostValue]` (= [0, 3]) for
ordinary agents across `move` and `interaction`; the decay branch clamps to 0
and clears `boost` as soon as the decayed value is ≤ 1; the regeneration
branch never exceeds `maxBoostValue`; and the predator's `boostValue` (fixed
1.2) is never changed by `move` or `interaction`. -/
theorem claimC7_boost_range (a : Boid) (population : List Boid) :
    (a.kind = .boid → 0 ≤ a.boostValue → a.boostValue ≤ maxBoostValue →
      (0 ≤ (move a).boostValue ∧ (move a).boostValue ≤ maxBoostValue) ∧
      (0 ≤ (interaction a population).boostValue ∧
        (interaction a population).boostValue ≤ maxBoostValue)) ∧
    (a.kind = .boid → a.boost = true → a.boostValue - 0.5 ≤ 1 →
      (move a).boostValue = 0 ∧ (move a).boost = false) ∧
    (a.kind = .boid → a.boost = false → a.boostValue ≤ maxBoostValue →
      (move a).boostValue ≤ maxBoostValue) ∧
    (a.kind = .predaboid →
      (move a).boostValue = a.boostValue ∧
      (interaction a population).boostValue = a.boostValue) := by
  refine ⟨?_, ?_, ?_, ?_⟩
  · intro hk h0 h3
    refine ⟨move_bv_bounds a hk h0 h3, ?_⟩
    rw [interaction_bv]
    exact move_bv_bounds _ (by rw [preMove_kind]; exact hk) (by rw [preMove_bv]; exact h0)
      (by rw [preMove_bv]; exact h3)
  · intro hk hb hle
    simp only [move, hk, hb, if_true]
    rw [if_pos hle]
    exact ⟨rfl, rfl⟩
  · intro hk hb h3
    simp only [move, hk, hb, Bool.false_eq_true, if_false, maxBoostValue] at *
    split_ifs <;> simp <;> linarith
  · intro hk
    refine ⟨move_bv_pred a hk, ?_⟩
    rw [interaction_bv]
    exact move_bv_pred _ (by rw [preMove_kind]; exact hk)

/-- A concrete boosting agent, used in the C7 witness. -/
def wBoost : Boid := ⟨0, .boid, (0, 0), (1, 0), true, 1.4, [], []⟩

/-- C7 witness: the bounds and clamping behaviour instantiated on a concrete
boosting agent. -/
theorem claimC7_boost_range_witness :
    (wBoost.kind = .boid ∧ wBoost.boost = true ∧ wBoost.boostValue - 0.5 ≤ 1) ∧
    (move wBoost).boostValue = 0 := by
  refine ⟨⟨rfl, rfl, by norm_num [wBoost]⟩, ?_⟩
  exact ((claimC7_boost_range wBoost []).2.1 rfl rfl (by norm_num [wBoost])).1

/-- C8: `angle_mort` returns false whenever either the caller's velocity or
the offset vector has zero norm; the cosine is clamped into `[-1, 1]` before
`arccos` (so the inverse cosine is never applied outside its domain); and for
non-degenerate inputs the result holds iff the (clamped) angle exceeds
`0.75 * π`. -/
theorem claimC8_blind_spot_safety (a b : Boid) :
    ((normV a.dx = 0 ∨ normV (vsub b.x a.x) = 0) → ¬ angle_mort a b) ∧
    (-1 ≤ cosClamped a b ∧ cosClamped a b ≤ 1) ∧
    ((normV a.dx ≠ 0 ∧ normV (vsub b.x a.x) ≠ 0) →
      (angle_mort a b ↔ Real.arccos (cosClamped a b) > 0.75 * Real.pi)) :=
  ⟨angle_mort_not_of_zero a b, cosClamped_mem_Icc a b,
    fun h => angle_mort_iff_arccos a b h.1 h.2⟩

/-- A concrete agent with zero velocity, used in the C8 witness. -/
def wStill : Boid := ⟨0, .boid, (0, 0), (0, 0), false, 3, [], []⟩

/-- A concrete moving agent, used in the C8 witness. -/
def wMover : Boid := ⟨1, .boid, (7, 0), (1, 0), false, 3, [], []⟩

/-- C8 witness: a concrete agent with zero velocity is never in a blind-spot
relation. -/
theorem claimC8_blind_spot_safety_witness :
    (normV wStill.dx = 0 ∨ normV (vsub wMover.x wStill.x) = 0) ∧
    ¬ angle_mort wStill wMover := by
  have hz : normV wStill.dx = 0 := by
    rw [normV_eq_zero_iff]
    norm_num [normSq, wStill]
  exact ⟨Or.inl hz, (claimC8_blind_spot_safety _ _).1 (Or.inl hz)⟩

/-! C5: the neighbour query. -/

open Classical in
/-- C5: `voisins population seuil` returns exactly the members of the
population other than the caller that are strictly within `seuil` and outside
the caller's blind spot (as a multiset: a permutation of the corresponding
filter of the population), sorted in non-decreasing order of distance to the
caller. -/
theorem claimC5_voisins (a : Boid) (population : List Boid) (seuil : ℝ) :
    (∀ o, o ∈ voisins a population seuil ↔
      o ∈ population ∧ a.ident ≠ o.ident ∧ distance a o < seuil ∧ ¬ angle_mort a o) ∧
    (voisins a population seuil).Perm
      (population.filter (fun other =>
        decide (a.ident ≠ other.ident) && decide (distance a other < seuil) &&
          ! decide (angle_mort a other))) ∧
    List.Pairwise (fun o₁ o₂ => distance a o₁ ≤ distance a o₂)
      (voisins a population seuil) := by
  refine ⟨?_, ?_, ?_⟩
  · intro o
    unfold voisins
    rw [List.mem_mergeSort, List.mem_filter]
    simp only [Bool.and_eq_true, Bool.not_eq_eq_eq_not, Bool.not_true,
      decide_eq_true_eq, decide_eq_false_iff_not]
    tauto
  · exact List.mergeSort_perm _ _
  · unfold voisins
    have hp := @List.sorted_mergeSort Boid
      (fun o₁ o₂ => decide (distance a o₁ ≤ distance a o₂))
      (fun o₁ o₂ o₃ h₁ h₂ => by
        simp only [decide_eq_true_eq] at h₁ h₂ ⊢
        exact le_trans h₁ h₂)
      (fun o₁ o₂ => by
        simp only [Bool.or_eq_true, decide_eq_true_eq]
        exact le_total _ _)
      (population.filter (fun other =>
        decide (a.ident ≠ other.ident) && decide (distance a other < seuil) &&
          ! decide (angle_mort a other)))
    exact hp.imp (fun h => by simpa using h)

/-! C9: determinism of seeded simulations. -/

/-- C9: two simulations built from the same population count and the same
seed (hence the same stream of RNG draws) coincide, state for state and in
particular position/velocity for position/velocity, after any number of
iterations: nothing in `iteration` consumes randomness. -/
theorem claimC9_determinism (n : ℤ) (rng₁ rng₂ : ℕ → ℝ) (k : ℕ)
    (h : ∀ i, rng₁ i = rng₂ i) :
    iterateN k (simInit n rng₁) = iterateN k (simInit n rng₂) := by
  have he : rng₁ = rng₂ := funext h
  rw [he]

/-- C9 witness: instantiated with a concrete seed stream, count and
iteration number. -/
theorem claimC9_determinism_witness :
    (∀ i : ℕ, (fun _ : ℕ => (0 : ℝ)) i = (fun _ : ℕ => (0 : ℝ)) i) ∧
    iterateN 2 (simInit 1 (fun _ : ℕ => (0 : ℝ))) =
      iterateN 2 (simInit 1 (fun _ : ℕ => (0 : ℝ))) :=
  ⟨fun _ => rfl, claimC9_determinism 1 _ _ 2 (fun _ => rfl)⟩

/-! C10: the attachments created by the simulation constructor. -/

/-- C10: every prey agent built by `Simulation.__init__` carries exactly the
single attachment `(centripete, 200)`, the predator carries none, and for an
agent with that attachment list the external-force phase of `interaction`
adds exactly `-position / 200` to the accumulated velocity. -/
theorem claimC10_centripetal (n : ℤ) (rng : ℕ → ℝ) :
    (∀ b ∈ (simInit n rng).boids, b.interactions = [(ExtForce.centripete, 200)]) ∧
    (simInit n rng).predator.interactions = [] ∧
    (∀ (a : Boid) (population : List Boid) (fl : Bool) (d : Vec),
      a.interactions = [(ExtForce.centripete, 200)] →
      extPhase a population fl d = vadd d (vdiv (sm (-1) a.x) 200)) := by
  refine ⟨?_, rfl, ?_⟩
  · intro b hb
    simp only [simInit, List.mem_map, List.mem_range] at hb
    obtain ⟨i, -, rfl⟩ := hb
    rfl
  · intro a population fl d h
    unfold extPhase
    rw [h]
    rfl

/-- C10 witness: the first boid of a concrete one-agent simulation carries
the centripetal attachment, and its external-force phase adds `-x/200`. -/
theorem claimC10_centripetal_witness :
    (buildBoidCentripete 0 0 0 0 0 ∈ (simInit 1 (fun _ : ℕ => (0 : ℝ))).boids ∧
      (buildBoidCentripete 0 0 0 0 0).interactions = [(ExtForce.centripete, 200)]) ∧
    extPhase (buildBoidCentripete 0 0 0 0 0) [] false (0, 0) =
      vadd (0, 0) (vdiv (sm (-1) (buildBoidCentripete 0 0 0 0 0).x) 200) := by
  refine ⟨⟨?_, rfl⟩, ?_⟩
  · simp [simInit, List.mem_map]
  · exact (claimC10_centripetal 1 (fun _ => 0)).2.2 _ [] false (0, 0) rfl

/-! C4: construction with a negative population count. -/

/-- C4 counterexample: `Simulation.__init__` performs no validation, so a
negative count does not fail: `range(-1)` is empty and a perfectly formed
simulation object with an empty prey list (and a predator) is produced. -/
theorem claimC4_counterexample :
    (simInit (-1) (fun _ : ℕ => (0 : ℝ))).boids = [] ∧
    (simInit (-1) (fun _ : ℕ => (0 : ℝ))).predator.kind = BoidKind.predaboid :=
  ⟨rfl, rfl⟩

/-- C4 amended: for every non-positive population count the constructor
succeeds and returns a simulation whose prey list is empty. -/
theorem claimC4_amended (n : ℤ) (rng : ℕ → ℝ) (h : n ≤ 0) :
    (simInit n rng).boids = [] := by
  unfold simInit
  rw [Int.toNat_of_nonpos h]
  rfl

/-- C4 witness for the amended statement, at count `-1`. -/
theorem claimC4_amended_witness :
    (-1 : ℤ) ≤ 0 ∧ (simInit (-1) (fun _ : ℕ => (1 : ℝ))).boids = [] :=
  ⟨by norm_num, claimC4_amended (-1) _ (by norm_num)⟩

/-! C3: the predator's `eat` and the distance cache. -/

/-- A prey agent currently 5 units from the predator. -/
def c3boid : Boid := ⟨0, .boid, (5, 0), (0, 0), false, 3, [], []⟩

/-- A predator whose distance cache still holds the stale value 100 for agent
0 — the state `Boid.distance`'s cache is left in by the previous iteration's
predator `interaction` once the prey has moved closer. -/
def c3pred : Boid := ⟨7, .predaboid, (0, 0), (0, 0), false, 1.2, [], [(0, 100)]⟩

/-- C3: at the failing input, `eat` keeps a prey agent whose current distance
(5) is below `eating_range` (20), because `Boid.distance` returns the stale
cached value 100 instead of recomputing. -/
theorem claimC3_stale_cache :
    eat c3pred [c3boid] = [c3boid] ∧
    distance c3pred c3boid = 5 ∧ distance c3pred c3boid ≤ eatingRange := by
  have hd : distance c3pred c3boid = 5 :=
    distance_eq_of_sq _ _ 5 (by norm_num) (by norm_num [normSq, vsub, c3pred, c3boid])
  have hc : cachedDistance c3pred c3boid = 100 := rfl
  refine ⟨?_, hd, by rw [hd]; norm_num [eatingRange]⟩
  unfold eat
  norm_num [hc, eatingRange, List.filter]

/-! C2: the boundary correction. -/

/-- A prey agent just inside the upper edge, moving outward at full speed
with a full boost charge. -/
def c2boid : Boid := ⟨0, .boid, (299, 0), (10, 0), false, 3, [], []⟩

theorem voisins_self (a : Boid) (seuil : ℝ) : voisins a [a] seuil = [] := by
  unfold voisins
  simp

theorem c2_kind : c2boid.kind = BoidKind.boid := rfl

theorem c2_sep : separation c2boid [c2boid] = vzero := by
  simp [separation, c2_kind, voisins_self]

theorem c2_align : align c2boid [c2boid] = vzero := by
  simp [align, voisins_self]

theorem c2_cohere : cohere c2boid [c2boid] = vzero := by
  simp [cohere, voisins_self]

theorem c2_flee : flee_predator c2boid [c2boid] = vzero := by
  simp [flee_predator, c2_kind, List.find?, show c2boid.kind = BoidKind.boid from rfl]

theorem c2_dx1 : forcesDx c2boid [c2boid] = (10, 0) := by
  simp [forcesDx, c2_sep, c2_align, c2_cohere, c2_flee, vadd, vdiv, vzero]
  norm_num [show c2boid.dx = ((10 : ℝ), (0 : ℝ)) from rfl]

theorem c2_bf : boostFlag c2boid [c2boid] (10, 0) = false := by
  simp [boostFlag, detect_predator, c2boid]

theorem c2_ext : extPhase c2boid [c2boid] false (10, 0) = (10, 0) := by
  simp [extPhase, show c2boid.interactions = [] from rfl]

theorem c2_clamp : clampSpeed ((10 : ℝ), (0 : ℝ)) = (10, 0) := by
  unfold clampSpeed
  rw [if_neg (not_lt_of_sq_le _ _ (by norm_num [maXVitesse]) (by norm_num [normSq, maXVitesse]))]

theorem c2_cache : mkCache c2boid [c2boid] = [] := by
  simp [mkCache, c2boid]

theorem c2_pre : preMove c2boid [c2boid] = ⟨0, .boid, (299, 0), (10, 0), false, 3, [], []⟩ := by
  simp only [preMove, c2_dx1, c2_bf, c2_ext, c2_clamp, c2_cache]
  rfl

theorem c2_move :
    move (⟨0, .boid, (299, 0), (10, 0), false, 3, [], []⟩ : Boid) =
      ⟨0, .boid, (329, 0), (10, 0), false, 3, [], []⟩ := by
  simp [move, maxBoostValue, vadd, sm]
  norm_num

theorem c2_reb :
    rebond ((329 : ℝ), (0 : ℝ)) ((10 : ℝ), (0 : ℝ)) = ((319, 0), (-10, 0)) := by
  simp only [rebond, reflect1]
  norm_num [taille]

/-- C2 counterexample: after one `interaction` of a legal in-arena state, the
boundary-corrected position is `(319, 0)` — the agent moved 29 units past the
edge, the reflection pulled it back only 10, so it is *not* repositioned
inside `[-taille, taille]` and exceeds the arena bound by 19 (far beyond any
floating-point tolerance). -/
theorem claimC2_counterexample :
    (interaction c2boid [c2boid]).x.1 = 319 ∧
    taille < (interaction c2boid [c2boid]).x.1 := by
  have hint : interaction c2boid [c2boid] =
      ⟨0, .boid, (319, 0), (-10, 0), false, 3, [], []⟩ := by
    simp only [interaction, c2_pre, c2_move]
    rw [c2_reb]
  rw [hint]
  exact ⟨rfl, by norm_num [taille]⟩

theorem reflect1_bound (c d : ℝ) (h : |c| ≤ taille + 10) :
    |(reflect1 c d).1| ≤ taille := by
  rw [abs_le] at *
  unfold reflect1 taille at *
  split_ifs with h1 h2 <;> simp only <;> constructor <;> linarith

/-- C2 amended: the boundary correction moves each reflected coordinate
exactly 10 units inward and flips that velocity component; consequently the
corrected position lies in `[-taille, taille]` whenever the incoming
coordinate exceeds the edge by at most 10 (in particular for the spec's
example of an overshoot of at most one step from `taille - 1`); an agent at
the exact centre is untouched.  Coordinates further out than `taille + 10`
are *not* brought back inside in one step. -/
theorem claimC2_amended (x d : Vec) :
    (|x.1| ≤ taille + 10 → |x.2| ≤ taille + 10 →
      |(rebond x d).1.1| ≤ taille ∧ |(rebond x d).1.2| ≤ taille) ∧
    (taille < x.1 → x.1 ≤ taille + 10 →
      (rebond x d).1.1 = x.1 - 10 ∧ |(rebond x d).1.1| ≤ taille ∧
      (rebond x d).2.1 = -d.1) ∧
    (x = vzero → rebond x d = (x, d)) := by
  refine ⟨?_, ?_, ?_⟩
  · intro h1 h2
    unfold rebond
    split_ifs with hg
    · exact ⟨reflect1_bound _ _ h1, reflect1_bound _ _ h2⟩
    · push_neg at hg
      exact ⟨hg.1, hg.2⟩
  · intro hgt hle
    have hg : |x.1| > taille ∨ |x.2| > taille :=
      Or.inl (lt_of_lt_of_le hgt (le_abs_self _))
    have hrr : reflect1 x.1 d.1 = (x.1 - 10, -d.1) := by
      unfold reflect1 taille at *
      rw [if_pos (by linarith : (300 : ℝ) - x.1 < 10)]
      simp only [Prod.mk.injEq]
      exact ⟨by ring, by trivial⟩
    unfold rebond
    rw [if_pos hg]
    simp only [hrr]
    refine ⟨by trivial, ?_, by trivial⟩
    rw [abs_le]
    unfold taille at *
    constructor <;> linarith
  · intro hx
    subst hx
    unfold rebond vzero taille
    rw [if_neg]
    norm_num

/-- C2 witness for the amended statement: a coordinate 5 past the edge is
pulled back to 295, inside the arena, with the velocity component flipped. -/
theorem claimC2_amended_witness :
    ((|((305 : ℝ), (2 : ℝ)).1| ≤ taille + 10 ∧ |((305 : ℝ), (2 : ℝ)).2| ≤ taille + 10) ∧
      taille < ((305 : ℝ), (2 : ℝ)).1) ∧
    (rebond (305, 2) (3, 4)).1.1 = 305 - 10 ∧
    |(rebond (305, 2) (3, 4)).1.1| ≤ taille ∧
    (rebond (305, 2) (3, 4)).2.1 = -(3 : ℝ) := by
  refine ⟨⟨⟨by norm_num [taille], by norm_num [taille]⟩, by norm_num [taille]⟩, ?_⟩
  exact (claimC2_amended (305, 2) (3, 4)).2.1 (by norm_num [taille]) (by norm_num [taille])

/-! C1: sequential in-place updates versus the spec's snapshot semantics.
Concrete three-agent scenario, all on the x-axis: prey `cA` (first in the
list, with prey `cB` in its blind spot), prey `cB` (which sees `cA`), and a
predator `cP` far beyond every perception radius. -/

/-- First prey: at the origin, moving left, so `cB` is behind it. -/
def cA : Boid := ⟨0, .boid, (0, 0), (-1, 0), false, 3, [], []⟩

/-- Second prey: 30 units right of `cA`, moving left, so it sees `cA`. -/
def cB : Boid := ⟨1, .boid, (30, 0), (-2, 0), false, 3, [], []⟩

/-- The predator, 1000 units away: outside every radius (150/200/250). -/
def cP : Boid := ⟨2, .predaboid, (1000, 0), (1, 0), false, 1.2, [], []⟩

/-- The state of `cA` after its `interaction` against `[cA, cB, cP]`: no
neighbours (`cB` is in the blind spot, `cP` too far), so it just advances by
`3 * dx`, refreshing its distance cache. -/
def cA1 : Boid := ⟨0, .boid, (-3, 0), (-1, 0), false, 3, [], [(1, 30), (2, 1000)]⟩

theorem dist_AB : distance cA cB = 30 :=
  distance_eq_of_sq _ _ 30 (by norm_num) (by norm_num [normSq, vsub, cA, cB])

theorem dist_AP : distance cA cP = 1000 :=
  distance_eq_of_sq _ _ 1000 (by norm_num) (by norm_num [normSq, vsub, cA, cP])

theorem blind_AB : angle_mort cA cB := by
  refine angle_mort_of_sq cA cB ?_ ?_ ?_ ?_ <;>
    norm_num [normSq, vsub, dot, cA, cB]

theorem vA_50 : voisins cA [cA, cB, cP] 50 = [] := by
  unfold voisins
  simp only [List.filter_cons, List.filter_nil, dist_AB, dist_AP, blind_AB]
  norm_num [cA, cB, cP]

theorem vA_200 : voisins cA [cA, cB, cP] 200 = [] := by
  unfold voisins
  simp only [List.filter_cons, List.filter_nil, dist_AB, dist_AP, blind_AB]
  norm_num [cA, cB, cP]

theorem sep_A : separation cA [cA, cB, cP] = vzero := by
  simp [separation, show cA.kind = BoidKind.boid from rfl, vA_50]

theorem align_A : align cA [cA, cB, cP] = vzero := by
  simp [align, vA_200]

theorem cohere_A : cohere cA [cA, cB, cP] = vzero := by
  simp [cohere, vA_200]

theorem flee_A : flee_predator cA [cA, cB, cP] = vzero := by
  unfold flee_predator
  simp only [show cA.kind = BoidKind.boid from rfl]
  rw [List.find?_cons_of_neg _ (by simp [cA]),
    List.find?_cons_of_neg _ (by simp [cB]),
    List.find?_cons_of_neg _ (by
      simp only [Bool.and_eq_true, decide_eq_true_eq]
      rintro ⟨-, h⟩
      rw [dist_AP] at h
      norm_num at h)]
  rfl

theorem dx1_A : forcesDx cA [cA, cB, cP] = (-1, 0) := by
  rw [forcesDx, sep_A, align_A, cohere_A, flee_A]
  norm_num [vadd, vdiv, vzero, show cA.dx = ((-1 : ℝ), (0 : ℝ)) from rfl]

theorem bf_A : boostFlag cA [cA, cB, cP] (-1, 0) = false := by
  unfold boostFlag
  rw [show ({ cA with dx := ((-1 : ℝ), (0 : ℝ)) } : Boid) = cA from rfl]
  have hdet : ¬ detect_predator cA [cA, cB, cP] := by
    rintro ⟨o, ho, hk, hd, -⟩
    simp only [List.mem_cons, List.not_mem_nil, or_false] at ho
    rcases ho with rfl | rfl | rfl
    · exact absurd hk (by simp [cA])
    · exact absurd hk (by simp [cB])
    · rw [dist_AP] at hd
      norm_num at hd
  simp [hdet]

theorem clamp_A : clampSpeed ((-1 : ℝ), (0 : ℝ)) = (-1, 0) := by
  unfold clampSpeed
  rw [if_neg (not_lt_of_sq_le _ _ (by norm_num [maXVitesse]) (by norm_num [normSq, maXVitesse]))]

theorem cache_A : mkCache cA [cA, cB, cP] = [(1, 30), (2, 1000)] := by
  unfold mkCache
  rw [List.filter_cons_of_neg (by simp [cA]),
    List.filter_cons_of_pos (by simp [cA, cB]),
    List.filter_cons_of_pos (by simp [cA, cP]), List.filter_nil]
  simp only [List.map_cons, List.map_nil]
  rw [dist_AB, dist_AP]
  rfl

theorem pre_A : preMove cA [cA, cB, cP] = ⟨0, .boid, (0, 0), (-1, 0), false, 3, [], [(1, 30), (2, 1000)]⟩ := by
  simp only [preMove, dx1_A, bf_A, cache_A]
  rw [show extPhase cA [cA, cB, cP] false ((-1 : ℝ), (0 : ℝ)) = ((-1 : ℝ), (0 : ℝ)) from rfl,
    clamp_A]
  rfl

theorem move_A :
    move (⟨0, .boid, (0, 0), (-1, 0), false, 3, [], [(1, 30), (2, 1000)]⟩ : Boid) =
      ⟨0, .boid, (-3, 0), (-1, 0), false, 3, [], [(1, 30), (2, 1000)]⟩ := by
  simp [move, maxBoostValue, vadd, sm]
  norm_num

theorem int_A : interaction cA [cA, cB, cP] = cA1 := by
  simp only [interaction, pre_A, move_A]
  rw [show rebond ((-3 : ℝ), (0 : ℝ)) ((-1 : ℝ), (0 : ℝ)) = ((-3, 0), (-1, 0)) from
      rebond_id _ _ (by norm_num [taille]) (by norm_num [taille])]
  rfl

/-! Evaluation helpers for the `voisins` filter condition. -/

open Classical in
theorem filter_boids_pos (a o : Boid) (s : ℝ) (l : List Boid) (h1 : a.ident ≠ o.ident)
    (h2 : distance a o < s) (h3 : ¬ angle_mort a o) :
    List.filter (fun other => decide (a.ident ≠ other.ident) &&
        decide (distance a other < s) && ! decide (angle_mort a other)) (o :: l) =
      o :: List.filter (fun other => decide (a.ident ≠ other.ident) &&
        decide (distance a other < s) && ! decide (angle_mort a other)) l := by
  rw [List.filter_cons_of_pos]
  simp [h1, h2, h3]

open Classical in
theorem filter_boids_self (a o : Boid) (s : ℝ) (l : List Boid) (h1 : a.ident = o.ident) :
    List.filter (fun other => decide (a.ident ≠ other.ident) &&
        decide (distance a other < s) && ! decide (angle_mort a other)) (o :: l) =
      List.filter (fun other => decide (a.ident ≠ other.ident) &&
        decide (distance a other < s) && ! decide (angle_mort a other)) l := by
  rw [List.filter_cons_of_neg]
  simp [h1]

open Classical in
theorem filter_boids_far (a o : Boid) (s : ℝ) (l : List Boid) (h2 : ¬ distance a o < s) :
    List.filter (fun other => decide (a.ident ≠ other.ident) &&
        decide (distance a other < s) && ! decide (angle_mort a other)) (o :: l) =
      List.filter (fun other => decide (a.ident ≠ other.ident) &&
        decide (distance a other < s) && ! decide (angle_mort a other)) l := by
  rw [List.filter_cons_of_neg]
  simp [h2]

/-! Sequential view: `cB` interacts against `[cA1, cB, cP]`, with the
already-updated `cA1`. -/

/-- The state of `cB` after the sequential prey phase (it perceived the
already-moved `cA1` at distance 33). -/
noncomputable def cBseq : Boid := ⟨1, .boid, (5073 / 200, 0), (-(309 / 200), 0), false, 3, [],
  [(0, 33), (2, 970)]⟩

/-- The state of `cB` after a two-phase prey pass (it perceived the original
`cA` at distance 30). -/
noncomputable def cBtwo : Boid := ⟨1, .boid, (1011 / 40, 0), (-(63 / 40), 0), false, 3, [],
  [(0, 30), (2, 970)]⟩

theorem dist_BA1 : distance cB cA1 = 33 :=
  distance_eq_of_sq _ _ 33 (by norm_num) (by norm_num [normSq, vsub, cB, cA1])

theorem dist_BP : distance cB cP = 970 :=
  distance_eq_of_sq _ _ 970 (by norm_num) (by norm_num [normSq, vsub, cB, cP])

theorem notblind_BA1 : ¬ angle_mort cB cA1 :=
  not_angle_mort_of_dot_nonneg _ _ (by norm_num [dot, vsub, cB, cA1])

theorem vB50_seq : voisins cB [cA1, cB, cP] 50 = [cA1] := by
  unfold voisins
  rw [filter_boids_pos cB cA1 50 _ (by simp [cB, cA1])
      (by rw [dist_BA1]; norm_num) notblind_BA1,
    filter_boids_self cB cB 50 _ rfl,
    filter_boids_far cB cP 50 _ (by rw [dist_BP]; norm_num),
    List.filter_nil]
  simp

theorem vB200_seq : voisins cB [cA1, cB, cP] 200 = [cA1] := by
  unfold voisins
  rw [filter_boids_pos cB cA1 200 _ (by simp [cB, cA1])
      (by rw [dist_BA1]; norm_num) notblind_BA1,
    filter_boids_self cB cB 200 _ rfl,
    filter_boids_far cB cP 200 _ (by rw [dist_BP]; norm_num),
    List.filter_nil]
  simp

theorem sep_B_seq : separation cB [cA1, cB, cP] = (33, 0) := by
  simp only [separation, show cB.kind = BoidKind.boid from rfl, vB50_seq]
  norm_num [maxVoisins, vadd, vsub, vzero, cB, cA1]

theorem align_B_seq : align cB [cA1, cB, cP] = (1, 0) := by
  simp only [align, vB200_seq]
  norm_num [maxVoisins, vadd, vsub, vdiv, vzero, cB, cA1]

theorem cohere_B_seq : cohere cB [cA1, cB, cP] = (-33, 0) := by
  simp only [cohere, vB200_seq]
  norm_num [maxVoisins, vadd, vsub, vdiv, vzero, cB, cA1]

theorem flee_B_seq : flee_predator cB [cA1, cB, cP] = vzero := by
  unfold flee_predator
  simp only [show cB.kind = BoidKind.boid from rfl]
  rw [List.find?_cons_of_neg _ (by simp [cA1]),
    List.find?_cons_of_neg _ (by simp [cB]),
    List.find?_cons_of_neg _ (by
      simp only [Bool.and_eq_true, decide_eq_true_eq]
      rintro ⟨-, h⟩
      rw [dist_BP] at h
      norm_num at h)]
  rfl

theorem dx1_B_seq : forcesDx cB [cA1, cB, cP] = (-(309 / 200), 0) := by
  rw [forcesDx, sep_B_seq, align_B_seq, cohere_B_seq, flee_B_seq]
  norm_num [vadd, vdiv, vzero, show cB.dx = ((-2 : ℝ), (0 : ℝ)) from rfl]

theorem bf_B_seq : boostFlag cB [cA1, cB, cP] (-(309 / 200), 0) = false := by
  unfold boostFlag
  have hdet : ¬ detect_predator
      { cB with dx := ((-(309 / 200) : ℝ), (0 : ℝ)) } [cA1, cB, cP] := by
    rintro ⟨o, ho, hk, hd, -⟩
    simp only [List.mem_cons, List.not_mem_nil, or_false] at ho
    rcases ho with rfl | rfl | rfl
    · exact absurd hk (by simp [cA1])
    · exact absurd hk (by simp [cB])
    · rw [show distance { cB with dx := ((-(309 / 200) : ℝ), (0 : ℝ)) } cP = 970 from
          distance_eq_of_sq _ _ 970 (by norm_num)
            (by norm_num [normSq, vsub, cB, cP])] at hd
      norm_num at hd
  simp [hdet]

theorem clamp_B_seq : clampSpeed ((-(309 / 200) : ℝ), (0 : ℝ)) = (-(309 / 200), 0) := by
  unfold clampSpeed
  rw [if_neg (not_lt_of_sq_le _ _ (by norm_num [maXVitesse])
    (by norm_num [normSq, maXVitesse]))]

theorem cache_B_seq : mkCache cB [cA1, cB, cP] = [(0, 33), (2, 970)] := by
  unfold mkCache
  rw [List.filter_cons_of_pos (by simp [cA1, cB]),
    List.filter_cons_of_neg (by simp [cB]),
    List.filter_cons_of_pos (by simp [cP, cB]), List.filter_nil]
  simp only [List.map_cons, List.map_nil]
  rw [dist_BA1, dist_BP]
  rfl

theorem pre_B_seq : preMove cB [cA1, cB, cP] =
    ⟨1, .boid, (30, 0), (-(309 / 200), 0), false, 3, [], [(0, 33), (2, 970)]⟩ := by
  simp only [preMove, dx1_B_seq, bf_B_seq, cache_B_seq]
  rw [show extPhase cB [cA1, cB, cP] false ((-(309 / 200) : ℝ), (0 : ℝ)) =
      ((-(309 / 200) : ℝ), (0 : ℝ)) from rfl, clamp_B_seq]
  rfl

theorem move_B_seq :
    move (⟨1, .boid, (30, 0), (-(309 / 200), 0), false, 3, [], [(0, 33), (2, 970)]⟩ : Boid) =
      ⟨1, .boid, (5073 / 200, 0), (-(309 / 200), 0), false, 3, [], [(0, 33), (2, 970)]⟩ := by
  simp [move, maxBoostValue, vadd, sm]
  norm_num

theorem int_B_seq : interaction cB [cA1, cB, cP] = cBseq := by
  simp only [interaction, pre_B_seq, move_B_seq]
  rw [show rebond ((5073 / 200 : ℝ), (0 : ℝ)) ((-(309 / 200) : ℝ), (0 : ℝ)) =
      ((5073 / 200, 0), (-(309 / 200), 0)) from
    rebond_id _ _ (by rw [abs_le]; constructor <;> norm_num [taille])
      (by rw [abs_le]; constructor <;> norm_num [taille])]
  rfl

/-! Two-phase view: `cB` interacts against the snapshot `[cA, cB, cP]`. -/

theorem dist_BA : distance cB cA = 30 :=
  distance_eq_of_sq _ _ 30 (by norm_num) (by norm_num [normSq, vsub, cB, cA])

theorem notblind_BA : ¬ angle_mort cB cA :=
  not_angle_mort_of_dot_nonneg _ _ (by norm_num [dot, vsub, cB, cA])

theorem vB50_two : voisins cB [cA, cB, cP] 50 = [cA] := by
  unfold voisins
  rw [filter_boids_pos cB cA 50 _ (by simp [cB, cA])
      (by rw [dist_BA]; norm_num) notblind_BA,
    filter_boids_self cB cB 50 _ rfl,
    filter_boids_far cB cP 50 _ (by rw [dist_BP]; norm_num),
    List.filter_nil]
  simp

theorem vB200_two : voisins cB [cA, cB, cP] 200 = [cA] := by
  unfold voisins
  rw [filter_boids_pos cB cA 200 _ (by simp [cB, cA])
      (by rw [dist_BA]; norm_num) notblind_BA,
    filter_boids_self cB cB 200 _ rfl,
    filter_boids_far cB cP 200 _ (by rw [dist_BP]; norm_num),
    List.filter_nil]
  simp

theorem sep_B_two : separation cB [cA, cB, cP] = (30, 0) := by
  simp only [separation, show cB.kind = BoidKind.boid from rfl, vB50_two]
  norm_num [maxVoisins, vadd, vsub, vzero, cB, cA]

theorem align_B_two : align cB [cA, cB, cP] = (1, 0) := by
  simp only [align, vB200_two]
  norm_num [maxVoisins, vadd, vsub, vdiv, vzero, cB, cA]

theorem cohere_B_two : cohere cB [cA, cB, cP] = (-30, 0) := by
  simp only [cohere, vB200_two]
  norm_num [maxVoisins, vadd, vsub, vdiv, vzero, cB, cA]

theorem flee_B_two : flee_predator cB [cA, cB, cP] = vzero := by
  unfold flee_predator
  simp only [show cB.kind = BoidKind.boid from rfl]
  rw [List.find?_cons_of_neg _ (by simp [cA]),
    List.find?_cons_of_neg _ (by simp [cB]),
    List.find?_cons_of_neg _ (by
      simp only [Bool.and_eq_true, decide_eq_true_eq]
      rintro ⟨-, h⟩
      rw [dist_BP] at h
      norm_num at h)]
  rfl

theorem dx1_B_two : forcesDx cB [cA, cB, cP] = (-(63 / 40), 0) := by
  rw [forcesDx, sep_B_two, align_B_two, cohere_B_two, flee_B_two]
  norm_num [vadd, vdiv, vzero, show cB.dx = ((-2 : ℝ), (0 : ℝ)) from rfl]

theorem bf_B_two : boostFlag cB [cA, cB, cP] (-(63 / 40), 0) = false := by
  unfold boostFlag
  have hdet : ¬ detect_predator
      { cB with dx := ((-(63 / 40) : ℝ), (0 : ℝ)) } [cA, cB, cP] := by
    rintro ⟨o, ho, hk, hd, -⟩
    simp only [List.mem_cons, List.not_mem_nil, or_false] at ho
    rcases ho with rfl | rfl | rfl
    · exact absurd hk (by simp [cA])
    · exact absurd hk (by simp [cB])
    · rw [show distance { cB with dx := ((-(63 / 40) : ℝ), (0 : ℝ)) } cP = 970 from
          distance_eq_of_sq _ _ 970 (by norm_num)
            (by norm_num [normSq, vsub, cB, cP])] at hd
      norm_num at hd
  simp [hdet]

theorem clamp_B_two : clampSpeed ((-(63 / 40) : ℝ), (0 : ℝ)) = (-(63 / 40), 0) := by
  unfold clampSpeed
  rw [if_neg (not_lt_of_sq_le _ _ (by norm_num [maXVitesse])
    (by norm_num [normSq, maXVitesse]))]

theorem cache_B_two : mkCache cB [cA, cB, cP] = [(0, 30), (2, 970)] := by
  unfold mkCache
  rw [List.filter_cons_of_pos (by simp [cA, cB]),
    List.filter_cons_of_neg (by simp [cB]),
    List.filter_cons_of_pos (by simp [cP, cB]), List.filter_nil]
  simp only [List.map_cons, List.map_nil]
  rw [dist_BA, dist_BP]
  rfl

theorem pre_B_two : preMove cB [cA, cB, cP] =
    ⟨1, .boid, (30, 0), (-(63 / 40), 0), false, 3, [], [(0, 30), (2, 970)]⟩ := by
  simp only [preMove, dx1_B_two, bf_B_two, cache_B_two]
  rw [show extPhase cB [cA, cB, cP] false ((-(63 / 40) : ℝ), (0 : ℝ)) =
      ((-(63 / 40) : ℝ), (0 : ℝ)) from rfl, clamp_B_two]
  rfl

theorem move_B_two :
    move (⟨1, .boid, (30, 0), (-(63 / 40), 0), false, 3, [], [(0, 30), (2, 970)]⟩ : Boid) =
      ⟨1, .boid, (1011 / 40, 0), (-(63 / 40), 0), false, 3, [], [(0, 30), (2, 970)]⟩ := by
  simp [move, maxBoostValue, vadd, sm]
  norm_num

theorem int_B_two : interaction cB [cA, cB, cP] = cBtwo := by
  simp only [interaction, pre_B_two, move_B_two]
  rw [show rebond ((1011 / 40 : ℝ), (0 : ℝ)) ((-(63 / 40) : ℝ), (0 : ℝ)) =
      ((1011 / 40, 0), (-(63 / 40), 0)) from
    rebond_id _ _ (by rw [abs_le]; constructor <;> norm_num [taille])
      (by rw [abs_le]; constructor <;> norm_num [taille])]
  rfl

/-- C1 counterexample: on the concrete population `[cA, cB]` with predator
`cP`, the sequential in-place prey loop of `Simulation.iteration` and the
spec's two-phase compute-then-apply evaluation produce different positions
for the second prey (`cB` reads `cA`'s already-updated position in the
sequential loop). -/
theorem claimC1_counterexample :
    (preyPhase cP [] [cA, cB]).map (fun b => b.x) ≠
      (twoPhase cP [cA, cB]).map (fun b => b.x) := by
  have hseq : preyPhase cP [] [cA, cB] = [cA1, cBseq] := by
    simp only [preyPhase, List.nil_append, List.cons_append, List.append_nil,
      List.singleton_append]
    rw [int_A, int_B_seq]
  have htwo : twoPhase cP [cA, cB] = [cA1, cBtwo] := by
    simp only [twoPhase, List.map_cons, List.map_nil, List.cons_append,
      List.nil_append]
    rw [int_A, int_B_two]
  rw [hseq, htwo]
  simp only [List.map_cons, List.map_nil, cA1, cBseq, cBtwo, ne_eq,
    List.cons.injEq, Prod.mk.injEq]
  norm_num

/-! The sequential characterization of the prey phase (C1 amended). -/

theorem preyPhase_length (p : Boid) (todo : List Boid) :
    ∀ done : List Boid, (preyPhase p done todo).length = done.length + todo.length := by
  induction todo with
  | nil => intro done; simp [preyPhase]
  | cons b rest ih =>
      intro done
      rw [preyPhase, ih]
      simp
      omega

theorem preyPhase_take (p : Boid) (todo : List Boid) :
    ∀ (done : List Boid) (k : ℕ), k ≤ done.length →
      (preyPhase p done todo).take k = done.take k := by
  induction todo with
  | nil => intro done k hk; rfl
  | cons b rest ih =>
      intro done k hk
      rw [preyPhase, ih _ k (by simp; omega), List.take_append_of_le_length hk]

theorem preyPhase_get (p : Boid) (todo : List Boid) :
    ∀ (done : List Boid) (i : ℕ) (hi : i < todo.length),
      (preyPhase p done todo)[done.length + i]? =
        some (interaction (todo.get ⟨i, hi⟩)
          ((preyPhase p done todo).take (done.length + i) ++ todo.drop i ++ [p])) := by
  induction todo with
  | nil => intro done i hi; exact absurd hi (by simp)
  | cons b rest ih =>
      intro done i hi
      cases i with
      | zero =>
          rw [preyPhase]
          have hlen : done.length + 0 = done.length := by omega
          rw [hlen]
          have ht : (preyPhase p (done ++ [interaction b (done ++ b :: rest ++ [p])]) rest).take
              done.length = done := by
            rw [preyPhase_take p rest _ done.length (by simp),
              List.take_append_of_le_length (by simp), List.take_length]
          have ht1 : (preyPhase p (done ++ [interaction b (done ++ b :: rest ++ [p])]) rest).take
              (done.length + 1) = done ++ [interaction b (done ++ b :: rest ++ [p])] := by
            rw [preyPhase_take p rest _ (done.length + 1) (by simp)]
            exact List.take_of_length_le (by simp)
          have hget : (preyPhase p (done ++ [interaction b (done ++ b :: rest ++ [p])])
              rest)[done.length]? = some (interaction b (done ++ b :: rest ++ [p])) := by
            rw [← List.getElem?_take_of_lt (Nat.lt_succ_self done.length), ht1,
              List.getElem?_concat_length]
          rw [hget, ht]
          simp
      | succ j =>
          rw [preyPhase]
          have hj : j < rest.length := by simpa using hi
          have harith : done.length + (j + 1) =
              (done ++ [interaction b (done ++ b :: rest ++ [p])]).length + j := by
            simp
            omega
          rw [harith, ih _ j hj]
          simp

/-- C1 amended: the prey loop of `Simulation.iteration` updates agents
sequentially in place, so the i-th result is the `interaction` of the i-th
prey against the already-updated prefix, the not-yet-updated suffix (itself
included) and the predator — not against the start-of-iteration snapshot;
the loop preserves the number and order of agents. -/
theorem claimC1_amended (p : Boid) (boids : List Boid) (i : ℕ)
    (hi : i < boids.length) :
    (preyPhase p [] boids).length = boids.length ∧
    (preyPhase p [] boids)[i]? =
      some (interaction (boids.get ⟨i, hi⟩)
        ((preyPhase p [] boids).take i ++ boids.drop i ++ [p])) := by
  constructor
  · simpa using preyPhase_length p boids []
  · simpa using preyPhase_get p boids [] i hi

/-- C1 amended witness: the characterization instantiated on a concrete
one-prey population. -/
theorem claimC1_amended_witness :
    0 < ([wStill] : List Boid).length ∧
    (preyPhase wMover [] [wStill])[0]? =
      some (interaction (([wStill] : List Boid).get ⟨0, by norm_num⟩)
        ((preyPhase wMover [] [wStill]).take 0 ++
          ([wStill] : List Boid).drop 0 ++ [wMover])) := by
  refine ⟨by norm_num, ?_⟩
  exact (claimC1_amended wMover [wStill] 0 (by norm_num)).2

end BoidsSim
